import Mathlib

/-!
Verification development for the dentist appointment-booking service
(`app.py`, `excel_io.py`).  The Python source is shallowly embedded:
pure helpers become Lean functions on `String`/`Nat`/`Int`/`ℚ`, the Excel
workbook becomes an explicit `Workbook` value threaded through the
operations, and the two external collaborators (the LLM field-extraction
service and the `dateparser` library) are parameters, as the design
document declares them out of scope.  Character-level operations model the
ASCII behaviour of Python's `str.lower`, `re` character classes and
`str.strip`; all inputs of interest are ASCII.  Python `float` arithmetic
in `difflib.SequenceMatcher.ratio` is modelled exactly over `ℚ`: the
ratios compared here are quotients of small integers, far apart
relative to double-precision rounding, so the orderings coincide.
-/

namespace Dentist

/-! ### Character helpers (ASCII models of Python `str` / `re` classes) -/

/-- ASCII decimal digit test (`[0-9]`, the ASCII core of regex `\d`). -/
def isDigitA (c : Char) : Bool := 48 ≤ c.toNat && c.toNat ≤ 57

/-- Numeric value of an ASCII digit. -/
def digitVal (c : Char) : Option Nat :=
  if isDigitA c then some (c.toNat - 48) else none

/-- Python `\s` whitespace class (ASCII part): space, tab, LF, CR, VT, FF. -/
def pyWhite (c : Char) : Bool :=
  c == ' ' || c == '\t' || c == '\n' || c == '\r' || c == '\x0b' || c == '\x0c'

/-- Regex word character `\w` (ASCII part): letters, digits, underscore. -/
def isWordChar (c : Char) : Bool := c.isAlpha || isDigitA c || c == '_'

/-- Python `str.strip()`: drop leading and trailing whitespace. -/
def pyStrip (s : String) : String :=
  String.mk (((s.data.dropWhile (fun c => pyWhite c)).reverse.dropWhile
      (fun c => pyWhite c)).reverse)

/-- Split a character list on whitespace runs, dropping empty pieces
(Python `str.split()` with no argument).  `cur` holds the current word,
reversed. -/
def splitWsAux (cur : List Char) : List Char → List String
  | [] => if cur.isEmpty then [] else [String.mk cur.reverse]
  | c :: cs =>
    if pyWhite c then
      if cur.isEmpty then splitWsAux [] cs
      else String.mk cur.reverse :: splitWsAux [] cs
    else splitWsAux (c :: cur) cs

/-! ### `_norm` / `_tokens` (app.py lines 60-69)

`_norm` lower-cases, removes the honorific via `re.sub(r"\bdr\.?\b", "", s)`,
replaces `[^a-z0-9\s]` by spaces and collapses whitespace.  `dropDr` models
the honorific removal exactly, including the `\b` word-boundary semantics
(boundary between a `\w` character and a non-`\w` character or the string
edge) and the greedy optional dot.  `prev` is the character of the original
string just before the current scanning position (`none` at the start). -/

def dropDrF : Nat → Option Char → List Char → List Char
  | 0, _, l => l  -- fuel exhausted; never reached with fuel > length
  | fuel + 1, prev, l =>
    match l with
    | 'd' :: 'r' :: rest =>
      if (match prev with | some p => isWordChar p | none => false) then
        -- no boundary before the "d": the pattern cannot match here
        'd' :: dropDrF fuel (some 'd') ('r' :: rest)
      else
        match rest with
        | [] => []  -- "dr" at the end of the string: matched and removed
        | '.' :: c :: tl =>
          if isWordChar c then dropDrF fuel (some '.') (c :: tl)  -- matched "dr."
          else dropDrF fuel (some 'r') ('.' :: c :: tl)  -- no boundary after the dot
        | '.' :: [] => dropDrF fuel (some 'r') ['.']  -- "dr." at the end: "dr" only
        | c :: tl =>
          if isWordChar c then
            -- no boundary after the "r": the pattern cannot match here
            'd' :: dropDrF fuel (some 'd') ('r' :: c :: tl)
          else dropDrF fuel (some 'r') (c :: tl)  -- matched "dr"
    | c :: rest => c :: dropDrF fuel (some c) rest
    | [] => []

/-- Every recursive call of `dropDrF` strictly shortens the list, so fuel
`length + 1` always suffices and the fuel-out branch is unreachable. -/
def dropDr (prev : Option Char) (l : List Char) : List Char :=
  dropDrF (l.length + 1) prev l

/-- `re.sub(r"[^a-z0-9\s]", " ", ·)` applied pointwise (input is already
lower-cased). -/
def depunct (c : Char) : Char :=
  if c.isLower || isDigitA c || pyWhite c then c else ' '

/-- The words of the normalized string: lower-case, drop `dr`/`dr.`,
de-punctuate, split on whitespace.  `_norm` joins these with single
spaces (which also realizes the `\s+` collapse and the strip), and
`_tokens` is exactly this list. -/
def normWords (s : String) : List String :=
  splitWsAux [] ((dropDr none (s.data.map Char.toLower)).map depunct)

/-- `_norm` (app.py line 60). -/
def norm (s : String) : String := String.intercalate " " (normWords s)

/-- `_tokens` (app.py line 68): `_norm(s).split()`. -/
def tokens (s : String) : List String := normWords s

/-! ### `difflib.SequenceMatcher.ratio` (used at app.py line 111)

The inputs are the normalized fragment and normalized provider names; the
second sequence is always far shorter than 200 characters, so CPython's
autojunk heuristic never marks junk and `find_longest_match` reduces to:
the longest matching block, ties broken by the earliest start in `a`,
then the earliest start in `b`.  `ratio` is twice the total size of the
recursively collected matching blocks over the total length. -/

/-- Length of the longest common prefix. -/
def lcp : List Char → List Char → Nat
  | a :: as, b :: bs => if a = b then lcp as bs + 1 else 0
  | _, _ => 0

/-- `find_longest_match` over the whole ranges, with no junk: scan all
start pairs in ascending `(i, j)` order and keep the first strict
maximum, which realizes the earliest-in-`a`-then-`b` tie break. -/
def bestBlock (a b : List Char) : Nat × Nat × Nat :=
  (List.range a.length).foldl
    (fun best i =>
      (List.range b.length).foldl
        (fun best j =>
          let k := lcp (a.drop i) (b.drop j)
          if best.2.2 < k then (i, j, k) else best)
        best)
    (0, 0, 0)

/-- Total size of the matching blocks (`get_matching_blocks`), computed
with a fuel argument; `matchTotal` supplies fuel `|a| + |b|`, which
strictly exceeds the recursion depth because every recursive call strictly
shrinks the combined length. -/
def matchTotalF : Nat → List Char → List Char → Nat
  | 0, _, _ => 0
  | fuel + 1, a, b =>
    let p := bestBlock a b
    if p.2.2 = 0 then 0
    else
      matchTotalF fuel (a.take p.1) (b.take p.2.1) + p.2.2 +
        matchTotalF fuel (a.drop (p.1 + p.2.2)) (b.drop (p.2.1 + p.2.2))

def matchTotal (a b : List Char) : Nat := matchTotalF (a.length + b.length) a b

/-- `SequenceMatcher(None, a, b).ratio()`, exactly over `ℚ`
(`_calculate_ratio`: `2*M/T`, and `1.0` when both strings are empty). -/
def ratioQ (a b : String) : ℚ :=
  let t := a.length + b.length
  if t = 0 then 1 else (2 * matchTotal a.data b.data : ℚ) / t

/-! ### `choose_doctor` (app.py lines 71-117) -/

/-- Python string `<`: lexicographic comparison of the code points.
(When the heads differ their code points differ, since `Char.toNat` is
injective.) -/
def lexLt : List Char → List Char → Bool
  | _, [] => false
  | [], _ :: _ => true
  | a :: as, b :: bs => if a = b then lexLt as bs else decide (a.toNat < b.toNat)

def strLt (a b : String) : Bool := lexLt a.data b.data

def strLe (a b : String) : Bool := !(strLt b a)

/-- Ascending insertion into a list sorted by `strLe`. -/
def insertLex (x : String) : List String → List String
  | [] => [x]
  | y :: ys => if strLe x y then x :: y :: ys else y :: insertLex x ys

/-- Ascending lexicographic sort on strings: Python `sorted` on the
candidate set. -/
def sortLex : List String → List String
  | [] => []
  | x :: xs => insertLex x (sortLex xs)

/-- One step of the maximum search that models
`scored.sort(reverse=True); scored[0]`: the Python sort orders pairs
`(ratio, name)` lexicographically, so the head of the reversed sort is the
tuple-maximal pair. -/
def betterScore (b p : ℚ × String) : ℚ × String :=
  if b.1 < p.1 ∨ (b.1 = p.1 ∧ strLt b.2 p.2 = true) then p else b

/-- The conservative full-string-similarity fallback (app.py lines
109-117).  `list_doctors()` always returns at least one sheet name, so the
empty-directory case (where the Python would raise `IndexError` on
`scored[0]`) is unreachable; it is modelled as no match. -/
def fallbackResolve (options : List String) (userText : String) :
    Option String × Option (List String) :=
  match options with
  | [] => (none, none)
  | d :: ds =>
    let nu := norm userText
    let scored := (d :: ds).map (fun doc => (ratioQ nu (norm doc), doc))
    let best := scored.foldl betterScore (ratioQ nu (norm d), d)
    if (72 : ℚ) / 100 ≤ best.1 then (some best.2, none) else (none, none)

/-- The providers one of whose normalized name tokens starts with some
fragment token of length at least 3 (app.py lines 94-101).  The source
builds a token-to-doctors index (`tok2docs`) and unions
`{doc | tok.startswith(ut)}` over the user tokens `ut`; membership in that
union is exactly this filter, and the set is consumed only through its
cardinality, its unique element, or `sorted`, so the list order is
irrelevant. -/
def fragCandidates (options : List String) (userText : String) : List String :=
  let userToks := (tokens userText).filter (fun t => 3 ≤ t.length)
  options.filter (fun doc =>
    userToks.any (fun ut => (tokens doc).any (fun tk => ut.data.isPrefixOf tk.data)))

/-- `choose_doctor` (app.py lines 71-117).  Returns
`(some canonical, none)` when confident, `(none, some choices)` when
ambiguous, `(none, none)` when unmatched.  When no user token has length
at least 3 the candidate set is empty, so the source's `if user_toks:`
guard around the two `matches` branches reduces to falling through to the
fallback, as here. -/
def chooseDoctor (options : List String) (userText : String) :
    Option String × Option (List String) :=
  if userText = "" then (none, none)
  else
    let ms := fragCandidates options userText
    if ms.length = 1 then (ms.head?, none)
    else if 1 < ms.length then (none, some ((sortLex ms).take 2))
    else fallbackResolve options userText

/-- The fixed provider roster (excel_io.py line 8).  The workbook is
created at startup with exactly one worksheet per doctor, and no code path
adds a sheet afterwards (`append_booking` creates one only for a doctor
that passed `doctor_exists`), so `list_doctors()` always returns this
list. -/
def DOCTORS : List String :=
  ["Dr. Jesan Ahmed", "Dr. Hasan Rahman", "Dr. Gregory House"]

/-! ### `_parse_hhmm` (excel_io.py lines 30-31)

`datetime.strptime(s, "%H:%M")` succeeds exactly on an hour token
(regex `2[0-3]|[0-1]\d|\d`, i.e. two digits when their value is at most
23, otherwise one digit), a literal colon, a minute token
(`[0-5]\d|\d`, i.e. two digits when the first is at most 5), and the end
of the string.  No other backtracking can succeed: a two-digit token that
fails later would require the second digit to also be a colon.  The model
returns the parsed `(hour, minute)` instead of a `datetime`; the source
only ever compares such values on one fixed date, which is the
lexicographic order on the pair. -/
/-- The hour token `2[0-3]|[0-1]\d|\d`: two digits when their value is at
most 23, otherwise one digit; returns the value and the unconsumed rest. -/
def parseHour : List Char → Option (Nat × List Char)
  | [] => none
  | c1 :: rest =>
    match digitVal c1 with
    | none => none
    | some d1 =>
      match rest with
      | c2 :: rest2 =>
        match digitVal c2 with
        | some d2 =>
          if 10 * d1 + d2 ≤ 23 then some (10 * d1 + d2, rest2) else some (d1, c2 :: rest2)
        | none => some (d1, c2 :: rest2)
      | [] => some (d1, [])

/-- The minute token `[0-5]\d|\d`, which must consume the whole remaining
input (strptime rejects unconverted trailing data). -/
def parseMin : List Char → Option Nat
  | [] => none
  | c3 :: rest4 =>
    match digitVal c3 with
    | none => none
    | some d3 =>
      match rest4 with
      | [] => some d3
      | c4 :: rest5 =>
        match digitVal c4 with
        | some d4 => if d3 ≤ 5 ∧ rest5 = [] then some (10 * d3 + d4) else none
        | none => none

def parse_hhmm (s : String) : Option (Nat × Nat) :=
  match parseHour s.data with
  | none => none
  | some (hh, rest) =>
    match rest with
    | ':' :: rest3 => (parseMin rest3).map (fun mm => (hh, mm))
    | _ => none

/-- Comparison of two parsed clock times on the same calendar date
(the `datetime` order used at excel_io.py line 47). -/
def timeLe (a b : Nat × Nat) : Bool :=
  decide (a.1 < b.1 ∨ (a.1 = b.1 ∧ a.2 ≤ b.2))

/-- `within_hours` (excel_io.py lines 43-49): working hours 14:00-23:59
inclusive; a parse failure is caught and yields `False`.
`_parse_hhmm("14:00")` and `_parse_hhmm("23:59")` never fail. -/
def within_hours (time_str : String) : Bool :=
  match parse_hhmm time_str with
  | some t => timeLe (14, 0) t && timeLe t (23, 59)
  | none => false

/-- Start time in minutes, as an integer (the `datetime` subtraction at
excel_io.py line 38 yields `60 * (minutes difference)` seconds). -/
def minutesOf (t : Nat × Nat) : Int := 60 * (t.1 : Int) + t.2

/-- `_overlaps` (excel_io.py lines 33-41): start times strictly less than
60 minutes (3600 seconds) apart; if either string fails to parse, the
`except` branch falls back to strict string equality. -/
def overlaps (t1 t2 : String) : Bool :=
  match parse_hhmm t1, parse_hhmm t2 with
  | some a, some b => decide (60 * (minutesOf a - minutesOf b).natAbs < 3600)
  | _, _ => t1 == t2

/-! ### The workbook (excel_io.py)

One worksheet per doctor; each data row has the six cells
`date, time, patient_name, service, phone, status` (the header row is not
modelled: every reader skips it with `min_row=2`).  Cell values are
modelled as the strings the source writes; the readers apply `str(...)`
to the first two cells, which is the identity here. -/

structure Row where
  date : String
  time : String
  patient_name : String
  service : String
  phone : String
  status : String
deriving DecidableEq

structure Workbook where
  sheets : List (String × List Row)
deriving DecidableEq

def sheetnames (wb : Workbook) : List String := wb.sheets.map Prod.fst

/-- `list_doctors` (excel_io.py lines 25-28) returns the sheet names of
the current workbook. -/
def list_doctors (wb : Workbook) : List String := sheetnames wb

/-- `doctor_exists` (excel_io.py lines 51-52). -/
def doctor_exists (wb : Workbook) (name : String) : Bool :=
  (list_doctors wb).contains name

/-- `slot_available` (excel_io.py lines 54-65): `False` for an unknown
sheet, otherwise `True` iff no row of the doctor's sheet has the same
date and an overlapping time. -/
def slot_available (wb : Workbook) (doctor date_str time_str : String) : Bool :=
  match wb.sheets.lookup doctor with
  | none => false
  | some rows =>
    rows.all (fun r => !(r.date == date_str && overlaps r.time time_str))

/-- `append_booking` (excel_io.py lines 67-84): create the doctor's sheet
if missing (the lenient auto-creation carried from the source), then
append the row and save. -/
def append_booking (wb : Workbook) (doctor : String) (row : Row) : Workbook :=
  let wb1 : Workbook :=
    if (sheetnames wb).contains doctor then wb
    else ⟨wb.sheets ++ [(doctor, [])]⟩
  ⟨wb1.sheets.map (fun s => if s.1 == doctor then (s.1, s.2 ++ [row]) else s)⟩

/-- The workbook `ensure_workbook_with_doctors` creates at startup
(excel_io.py lines 10-23): one empty sheet per doctor. -/
def initialWb : Workbook := ⟨DOCTORS.map (fun d => (d, []))⟩

/-! ### Field sanitizers (app.py lines 153-160) -/

/-- `str.title()` on the ASCII letters: upper-case a letter that follows a
non-letter, lower-case a letter that follows a letter.  `prevAlpha` says
whether the previous character was a letter. -/
def titleCaseAux (prevAlpha : Bool) : List Char → List Char
  | [] => []
  | c :: cs =>
    if c.isAlpha then
      (if prevAlpha then c.toLower else c.toUpper) :: titleCaseAux true cs
    else c :: titleCaseAux false cs

/-- `clean_name` (app.py lines 153-156): keep only letters, whitespace and
hyphens, strip, title-case.  (`clean_name "" = ""` covers the
`if not s: return ""` guard.) -/
def clean_name (s : String) : String :=
  let kept := s.data.filter (fun c => c.isAlpha || pyWhite c || c == '-')
  String.mk (titleCaseAux false (pyStrip (String.mk kept)).data)

/-- `clean_phone` (app.py lines 158-160): keep only digits (`re.sub(r"\D","",s)`),
return them when there are at least 8, else the empty string. -/
def clean_phone (s : String) : String :=
  let digits := s.data.filter (fun c => isDigitA c)
  if 8 ≤ digits.length then String.mk digits else ""

/-! ### The slot-filling controller `/nlu` (app.py lines 191-271) -/

/-- The six dialogue slots. -/
structure DialogueState where
  doctor : String
  name : String
  phone : String
  service : String
  date_text : String
  time_text : String
deriving DecidableEq

/-- The fixed-shape result of the extraction capability and of the `/nlu`
endpoint itself: the six filled fields, the next question, and the
readiness flag.  The extraction service (OpenAI chat call, app.py lines
209-219) is an external collaborator; a call of `/nlu` receives its reply
as `some e`, while `none` stands for any failure of the call or of
`json.loads` on its output — exactly what the `except` at app.py line 220
catches. -/
structure ExtractOut where
  filled : DialogueState
  next_question : String
  ready : Bool
deriving DecidableEq

/-- `next_missing_question` (app.py lines 175-188): scan the six slots in
fixed order and prompt for the first empty (after strip) one. -/
def next_missing_question (f : DialogueState) : String :=
  if pyStrip f.doctor = "" then "Which doctor would you like to book with?"
  else if pyStrip f.name = "" then "What is your name?"
  else if pyStrip f.phone = "" then
    "What is your phone number? Please say at least 8 digits."
  else if pyStrip f.service = "" then "What service do you need?"
  else if pyStrip f.date_text = "" then
    "What date would you like to schedule your appointment?"
  else if pyStrip f.time_text = "" then
    "What time would you like to schedule your appointment?"
  else "Great—shall I proceed to book this appointment?"

/-- `all_ok` (app.py line 268): every slot non-empty after strip. -/
def allFilled (f : DialogueState) : Bool :=
  pyStrip f.doctor != "" && (pyStrip f.name != "" && (pyStrip f.phone != "" &&
    (pyStrip f.service != "" && (pyStrip f.date_text != "" &&
      pyStrip f.time_text != ""))))

/-- app.py lines 195-233: sanitize the phone already in the incoming
state, substitute the deterministic fallback when extraction failed, then
re-sanitize the returned name and phone (each only when non-empty, per
Python truthiness). -/
def sanitizeStage (prior : DialogueState) (ext : Option ExtractOut) : ExtractOut :=
  let prior1 : DialogueState :=
    ⟨prior.doctor, prior.name, clean_phone prior.phone, prior.service,
      prior.date_text, prior.time_text⟩
  let data0 : ExtractOut :=
    match ext with
    | some d => d
    | none => ⟨prior1, "Sorry, could you repeat that?", false⟩
  let f0 := data0.filled
  let f1 : DialogueState :=
    if f0.name ≠ "" then
      ⟨f0.doctor, clean_name f0.name, f0.phone, f0.service, f0.date_text, f0.time_text⟩
    else f0
  let f2 : DialogueState :=
    if f1.phone ≠ "" then
      ⟨f1.doctor, f1.name, clean_phone f1.phone, f1.service, f1.date_text, f1.time_text⟩
    else f1
  ⟨f2, data0.next_question, data0.ready⟩

/-- The clarification question built from the two ambiguity candidates
(app.py line 244).  `choose_doctor` only ever reports exactly two
candidates, so the two indexings cannot fail. -/
def ambiguousMsg (amb : List String) : String :=
  "Did you mean " ++ amb.getD 0 "" ++ " or " ++ amb.getD 1 "" ++ "?"

/-- The re-prompt for a doctor that is not in the clinic
(app.py lines 252-255). -/
def unknownDoctorMsg (doctors : List String) : String :=
  "Sorry, that doctor is not in our clinic. Available doctors: " ++
    String.intercalate ", " doctors ++ ". Which doctor would you like?"

/-- app.py lines 236-245: fuzzy-map a non-empty doctor to its canonical
name, or clear it and return the clarification question immediately
(`Sum.inl` is the early `return`). -/
def doctorResolveStage (doctors : List String) (data : ExtractOut) :
    ExtractOut ⊕ ExtractOut :=
  if data.filled.doctor ≠ "" then
    match chooseDoctor doctors data.filled.doctor with
    | (some canon, _) =>
      Sum.inr ⟨⟨canon, data.filled.name, data.filled.phone, data.filled.service,
        data.filled.date_text, data.filled.time_text⟩, data.next_question, data.ready⟩
    | (none, some amb) =>
      Sum.inl ⟨⟨"", data.filled.name, data.filled.phone, data.filled.service,
        data.filled.date_text, data.filled.time_text⟩, ambiguousMsg amb, false⟩
    | (none, none) => Sum.inr data
  else Sum.inr data

/-- app.py lines 258-269: the phone length guard (kept from the source
even though `clean_phone` has already cleared any short phone, making the
branch unreachable), then the deterministic next question and readiness. -/
def finishStage (data : ExtractOut) : ExtractOut :=
  if data.filled.phone ≠ "" ∧ data.filled.phone.length < 8 then
    ⟨⟨data.filled.doctor, data.filled.name, "", data.filled.service,
        data.filled.date_text, data.filled.time_text⟩,
      "Please say your phone number with at least 8 digits.", false⟩
  else
    ⟨data.filled, next_missing_question data.filled, allFilled data.filled⟩

/-- The turn suffix after the resolution stage: the early clarification
return, or the in-clinic guard (app.py lines 248-256) followed by the
finishing stage. -/
def afterResolve (doctors : List String) : ExtractOut ⊕ ExtractOut → ExtractOut
  | Sum.inl early => early
  | Sum.inr data =>
    if data.filled.doctor ≠ "" ∧ ¬ doctors.contains data.filled.doctor then
      ⟨⟨"", data.filled.name, data.filled.phone, data.filled.service,
          data.filled.date_text, data.filled.time_text⟩,
        unknownDoctorMsg doctors, false⟩
    else finishStage data

/-- The `/nlu` endpoint (app.py lines 191-271), as a function of the prior
state and the extraction result.  `doctors` is `list_doctors()`; the
in-clinic guard re-reads it, with the same value. -/
def nlu (doctors : List String) (prior : DialogueState) (ext : Option ExtractOut) :
    ExtractOut :=
  afterResolve doctors (doctorResolveStage doctors (sanitizeStage prior ext))

/-! ### `/check` (app.py lines 275-320) and the Booking Validator

`normalize` (app.py lines 162-173) delegates the whole parse to the
external `dateparser` library and maps any failure to `(None, None)`; it
is modelled as an abstract function returning the canonical
`(YYYY-MM-DD, HH:MM)` pair or `none`.  The source then tests the two
strings for truthiness (`if not date_str or not time_str`), so an empty
component is also treated as a failed normalization. -/

abbrev NormFn := String → String → Option (String × String)

/-- `doctor = canon or doctor_raw` (app.py lines 289 and 335): Python
truthiness falls back to the raw input also when the resolved name is the
empty string (impossible for a real sheet name, kept for exactness). -/
def orRaw (canon : Option String) (raw : String) : String :=
  match canon with
  | some c => if c = "" then raw else c
  | none => raw

/-- The JSON replies of `/check`: `{"ok": True, "date", "time"}` or
`{"ok": False, "reason", "message"}`. -/
inductive CheckResp where
  | pass (date time : String)
  | fail (reason message : String)
deriving DecidableEq

def badDatetimeCheckMsg : String :=
  "Sorry, I couldn\x27t understand that date and time."

def outsideHoursCheckMsg : String :=
  "Our doctors are available 14:00 to 23:59. Please choose a time in that range."

def overlapCheckMsg : String :=
  "That time is already booked. Please choose another time or another date."

def unknownDoctorCheckMsg (wb : Workbook) : String :=
  "Doctor not found. Available: " ++ String.intercalate ", " (list_doctors wb)

/-- The `/check` endpoint logic (app.py lines 282-320), over the already
stripped body fields.  `choose_doctor` only ever reports a non-empty
candidate list, so Python's truthiness test on `ambiguous` is the `some`
case. -/
def check (nf : NormFn) (wb : Workbook)
    (doctor_raw date_text time_text : String) : CheckResp :=
  let r := if doctor_raw ≠ "" then chooseDoctor (list_doctors wb) doctor_raw
           else (none, none)
  match r.2 with
  | some amb => .fail "ambiguous-doctor" (ambiguousMsg amb)
  | none =>
    let doctor := orRaw r.1 doctor_raw
    if ¬ doctor_exists wb doctor then
      .fail "unknown-doctor" (unknownDoctorCheckMsg wb)
    else
      match nf date_text time_text with
      | none => .fail "bad-datetime" badDatetimeCheckMsg
      | some (date_str, time_str) =>
        if date_str = "" ∨ time_str = "" then .fail "bad-datetime" badDatetimeCheckMsg
        else if ¬ within_hours time_str then .fail "outside-hours" outsideHoursCheckMsg
        else if ¬ slot_available wb doctor date_str time_str then
          .fail "overlap" overlapCheckMsg
        else .pass date_str time_str

/-- The `/check` endpoint (app.py lines 275-320): the body fields are
stripped (lines 278-280) before the checks run. -/
def checkEndpoint (nf : NormFn) (wb : Workbook)
    (doctor_body date_body time_body : String) : CheckResp :=
  check nf wb (pyStrip doctor_body) (pyStrip date_body) (pyStrip time_body)

/-! #### The Booking Validator as the design document words it (§4.6, §3)

`ValidationOutcome` is the spec's tagged variant, and `specValidate` is
its orchestration: the five checks in the fixed order doctor resolution,
provider existence, temporal normalization, business hours, availability,
as a short-circuiting chain where the first failed check wins
(`firstFail`), each failure paired with its reason code.  The doctor
resolution check fails precisely on ambiguity (its reason code is
`ambiguous-doctor`); an unresolved fragment flows to the provider
existence check, which rejects it as `unknown-doctor`. -/

inductive ValidationOutcome where
  | accepted (date time : String)
  | rejected (reason message : String)
deriving DecidableEq

/-- Ordered checks, first failure wins: each triple is
(check passed, reason code, message). -/
def firstFail : List (Bool × String × String) → Option (String × String)
  | [] => none
  | (ok, r, m) :: rest => if ok then firstFail rest else some (r, m)

def specValidate (nf : NormFn) (wb : Workbook)
    (doctor_raw date_text time_text : String) : ValidationOutcome :=
  let r := if doctor_raw ≠ "" then chooseDoctor (list_doctors wb) doctor_raw
           else (none, none)
  let doctor := orRaw r.1 doctor_raw
  let nres := nf date_text time_text
  let date_str := (nres.getD ("", "")).1
  let time_str := (nres.getD ("", "")).2
  let ambMessage := match r.2 with | some amb => ambiguousMsg amb | none => ""
  match firstFail
    [(r.2 = none, "ambiguous-doctor", ambMessage),
     (doctor_exists wb doctor, "unknown-doctor", unknownDoctorCheckMsg wb),
     (nres ≠ none ∧ date_str ≠ "" ∧ time_str ≠ "", "bad-datetime", badDatetimeCheckMsg),
     (within_hours time_str, "outside-hours", outsideHoursCheckMsg),
     (slot_available wb doctor date_str time_str, "overlap", overlapCheckMsg)] with
  | some (reason, message) => .rejected reason message
  | none => .accepted date_str time_str

/-- The evident mapping between the endpoint's JSON shape and the spec's
`ValidationOutcome`. -/
def toOutcome : CheckResp → ValidationOutcome
  | .pass d t => .accepted d t
  | .fail r m => .rejected r m

/-! ### `/book` (app.py lines 322-371)

The endpoint repeats the five checks and then calls `append_booking`.
`bookValidate` is the check prefix: `Sum.inl` is an early error response,
`Sum.inr` carries the resolved doctor and the row about to be written.
The availability check (`slot_available`) and the write (`append_booking`)
are two separate operations on the shared ledger file, each doing its own
load; nothing synchronizes them, so a concurrent scheduler may interleave
the phases of two requests.  `book` is the sequential execution;
`raceRun` executes the interleaving in which both requests pass the
availability check against the same ledger state before either saves. -/

inductive BookResp where
  | ok (message : String)
  | err (message : String) (status : Nat)
deriving DecidableEq

def bookValidate (nf : NormFn) (wb : Workbook)
    (doctor_b name_b phone_b service_b date_b time_b : String) :
    BookResp ⊕ (String × Row) :=
  let doctor_raw := pyStrip doctor_b
  let name := pyStrip name_b
  let phone := clean_phone phone_b
  let service := pyStrip service_b
  let date_text := pyStrip date_b
  let time_text := pyStrip time_b
  let r := if doctor_raw ≠ "" then chooseDoctor (list_doctors wb) doctor_raw
           else (none, none)
  match r.2 with
  | some amb => Sum.inl (.err (ambiguousMsg amb) 400)
  | none =>
    let doctor := orRaw r.1 doctor_raw
    if ¬ doctor_exists wb doctor then
      Sum.inl (.err ("Doctor not found. Available: " ++
        String.intercalate ", " (list_doctors wb)) 400)
    else
      match nf date_text time_text with
      | none => Sum.inl (.err "Invalid date/time." 400)
      | some (date_str, time_str) =>
        if date_str = "" ∨ time_str = "" then Sum.inl (.err "Invalid date/time." 400)
        else if ¬ within_hours time_str then
          Sum.inl (.err "Doctors are available 14:00–23:59 only." 400)
        else if ¬ slot_available wb doctor date_str time_str then
          Sum.inl (.err "That time is already booked. Please choose another." 409)
        else Sum.inr (doctor, ⟨date_str, time_str, name, service, phone, "confirmed"⟩)

def bookOkMsg (doctor : String) (row : Row) : String :=
  "Booked with " ++ doctor ++ " on " ++ row.date ++ " at " ++ row.time ++ "."

/-- Result of one `/book` call: `resp = none` means an exception escaped
the handler unhandled (no JSON reply with any reason reaches the caller
from the endpoint code); `wb` is the ledger state afterwards. -/
structure BookOutcome where
  resp : Option BookResp
  wb : Workbook
deriving DecidableEq

/-- The sequential `/book` endpoint.  `saveOk` models the availability of
the persistent ledger at commit time: `wb.save(FILE)` inside
`append_booking` (excel_io.py line 84) raises when the file is
unavailable, neither `append_booking` nor `book` catches anything, and the
file is left unchanged. -/
def book (nf : NormFn) (saveOk : Bool) (wb : Workbook)
    (doctor_b name_b phone_b service_b date_b time_b : String) : BookOutcome :=
  match bookValidate nf wb doctor_b name_b phone_b service_b date_b time_b with
  | Sum.inl resp => ⟨some resp, wb⟩
  | Sum.inr (doctor, row) =>
    if saveOk then ⟨some (.ok (bookOkMsg doctor row)), append_booking wb doctor row⟩
    else ⟨none, wb⟩

/-- Two concurrent `/book` requests under the schedule
check₁ · check₂ · write₁ · write₂: both availability checks read the same
ledger state `wb`, then the writes run in order (each `append_booking`
re-loads the file, so the second write sees the first row).  Returns both
responses and the final ledger. -/
def raceRun (nf : NormFn) (wb : Workbook)
    (i1 i2 : String × String × String × String × String × String) :
    BookResp × BookResp × Workbook :=
  let v1 := bookValidate nf wb i1.1 i1.2.1 i1.2.2.1 i1.2.2.2.1 i1.2.2.2.2.1 i1.2.2.2.2.2
  let v2 := bookValidate nf wb i2.1 i2.2.1 i2.2.2.1 i2.2.2.2.1 i2.2.2.2.2.1 i2.2.2.2.2.2
  match v1, v2 with
  | Sum.inr (d1, r1), Sum.inr (d2, r2) =>
    (.ok (bookOkMsg d1 r1), .ok (bookOkMsg d2 r2),
      append_booking (append_booking wb d1 r1) d2 r2)
  | Sum.inr (d1, r1), Sum.inl e2 => (.ok (bookOkMsg d1 r1), e2, append_booking wb d1 r1)
  | Sum.inl e1, Sum.inr (d2, r2) => (e1, .ok (bookOkMsg d2 r2), append_booking wb d2 r2)
  | Sum.inl e1, Sum.inl e2 => (e1, e2, wb)

/-- The external date parser replying with the already-canonical pair, the
reply `dateparser` gives on inputs that are already in canonical form
(modelled response of the external collaborator, used for concrete runs). -/
def nfEcho : NormFn := fun d t => some (d, t)

/-! ## Supporting lemmas -/

lemma digitVal_le {c : Char} {d : Nat} (h : digitVal c = some d) : d ≤ 9 := by
  unfold digitVal at h
  split at h
  · rename_i hdig
    simp only [isDigitA, Bool.and_eq_true, decide_eq_true_eq] at hdig
    simp only [Option.some.injEq] at h
    omega
  · exact absurd h (by simp)

lemma parseHour_le {l : List Char} {hh : Nat} {rest : List Char}
    (h : parseHour l = some (hh, rest)) : hh ≤ 23 := by
  unfold parseHour at h
  split at h
  · exact absurd h (by simp)
  rename_i c1 r
  split at h
  · exact absurd h (by simp)
  rename_i d1 hd1
  have hd1le := digitVal_le hd1
  split at h
  · rename_i c2 rest2
    split at h
    · rename_i d2 hd2
      split at h <;> simp only [Option.some.injEq, Prod.mk.injEq] at h <;> omega
    · simp only [Option.some.injEq, Prod.mk.injEq] at h; omega
  · simp only [Option.some.injEq, Prod.mk.injEq] at h; omega

lemma parseMin_le {l : List Char} {mm : Nat} (h : parseMin l = some mm) : mm ≤ 59 := by
  unfold parseMin at h
  split at h
  · exact absurd h (by simp)
  rename_i c3 rest4
  split at h
  · exact absurd h (by simp)
  rename_i d3 hd3
  have hd3le := digitVal_le hd3
  split at h
  · simp only [Option.some.injEq] at h; omega
  rename_i c4 rest5
  split at h
  · rename_i d4 hd4
    have hd4le := digitVal_le hd4
    split at h
    · rename_i hcond
      simp only [Option.some.injEq] at h
      omega
    · exact absurd h (by simp)
  · exact absurd h (by simp)

lemma parse_hhmm_bounds {s : String} {h m : Nat}
    (hp : parse_hhmm s = some (h, m)) : h ≤ 23 ∧ m ≤ 59 := by
  unfold parse_hhmm at hp
  split at hp
  · exact absurd hp (by simp)
  rename_i hh rest hhour
  split at hp
  · rename_i rest3
    simp only [Option.map_eq_some'] at hp
    obtain ⟨mm, hmm, heq⟩ := hp
    simp only [Prod.mk.injEq] at heq
    obtain ⟨he1, he2⟩ := heq
    subst he1; subst he2
    exact ⟨parseHour_le hhour, parseMin_le hmm⟩
  · exact absurd hp (by simp)

lemma clean_phone_spec (s : String) :
    clean_phone s = "" ∨
      (8 ≤ (clean_phone s).length ∧ (clean_phone s).data.all (fun c => isDigitA c)) := by
  unfold clean_phone
  show (if 8 ≤ (s.data.filter (fun c => isDigitA c)).length then
      String.mk (s.data.filter (fun c => isDigitA c)) else "") = "" ∨ _
  by_cases h8 : 8 ≤ (s.data.filter (fun c => isDigitA c)).length
  · right
    rw [if_pos h8]
    refine ⟨?_, ?_⟩
    · show 8 ≤ (s.data.filter (fun c => isDigitA c)).length
      exact h8
    · show (s.data.filter (fun c => isDigitA c)).all (fun c => isDigitA c) = true
      exact List.all_eq_true.mpr (fun c hc => (List.mem_filter.mp hc).2)
  · left
    rw [if_neg h8]

lemma clean_phone_fix {p : String} (h : clean_phone p = p) :
    p = "" ∨ (8 ≤ p.length ∧ p.data.all (fun c => isDigitA c)) := by
  rcases clean_phone_spec p with h0 | h0
  · left; rw [← h, h0]
  · right; rw [← h]; exact h0

/-- Resolving a canonical roster name yields that name (shared by several
claims). -/
lemma canonical_fixed : ∀ d ∈ DOCTORS, chooseDoctor DOCTORS d = (some d, none) := by
  decide

lemma doctors_stripped : ∀ d ∈ DOCTORS, pyStrip d = d ∧ d ≠ "" := by decide

/-- Everything but the doctor slot (and, on the early return, the prompt
and readiness) passes through the doctor resolution stage unchanged. -/
lemma doctorResolve_inl {doctors : List String} {data e : ExtractOut}
    (h : doctorResolveStage doctors data = Sum.inl e) :
    e.filled.name = data.filled.name ∧ e.filled.phone = data.filled.phone ∧
      e.ready = false := by
  unfold doctorResolveStage at h
  split at h
  · split at h
    · exact absurd h (by simp)
    · simp only [Sum.inl.injEq] at h
      subst h
      exact ⟨rfl, rfl, rfl⟩
    · exact absurd h (by simp)
  · exact absurd h (by simp)

lemma doctorResolve_inr {doctors : List String} {data d2 : ExtractOut}
    (h : doctorResolveStage doctors data = Sum.inr d2) :
    d2.filled.name = data.filled.name ∧ d2.filled.phone = data.filled.phone ∧
      d2.filled.service = data.filled.service ∧
      d2.filled.date_text = data.filled.date_text ∧
      d2.filled.time_text = data.filled.time_text ∧
      d2.next_question = data.next_question ∧ d2.ready = data.ready := by
  unfold doctorResolveStage at h
  split at h
  · split at h
    · simp only [Sum.inr.injEq] at h
      subst h
      exact ⟨rfl, rfl, rfl, rfl, rfl, rfl, rfl⟩
    · exact absurd h (by simp)
    · simp only [Sum.inr.injEq] at h
      subst h
      exact ⟨rfl, rfl, rfl, rfl, rfl, rfl, rfl⟩
  · simp only [Sum.inr.injEq] at h
    subst h
    exact ⟨rfl, rfl, rfl, rfl, rfl, rfl, rfl⟩

/-- A state whose doctor is empty or canonical passes the resolution stage
untouched. -/
lemma doctorResolve_canonical {data : ExtractOut}
    (h : data.filled.doctor = "" ∨ data.filled.doctor ∈ DOCTORS) :
    doctorResolveStage DOCTORS data = Sum.inr data := by
  obtain ⟨⟨d, n, p, sv, dt, tt⟩, nq, r⟩ := data
  rcases h with h | h
  · simp only at h
    subst h
    unfold doctorResolveStage
    simp
  · simp only at h
    unfold doctorResolveStage
    have hne : d ≠ "" := (doctors_stripped d h).2
    simp only [if_pos hne]
    rw [canonical_fixed d h]

/-- The phone slot of the sanitized state is either empty or a
`clean_phone` output. -/
lemma sanitize_phone_spec (prior : DialogueState) (ext : Option ExtractOut) :
    (sanitizeStage prior ext).filled.phone = "" ∨
      (8 ≤ (sanitizeStage prior ext).filled.phone.length ∧
        (sanitizeStage prior ext).filled.phone.data.all (fun c => isDigitA c)) := by
  unfold sanitizeStage
  cases ext with
  | none =>
    simp only
    split
    · split
      · exact clean_phone_spec _
      · rename_i hne
        exact clean_phone_spec _
    · split
      · exact clean_phone_spec _
      · rename_i hne
        exact clean_phone_spec _
  | some e =>
    simp only
    split
    · split
      · exact clean_phone_spec _
      · rename_i hne
        left
        exact not_not.mp hne
    · split
      · exact clean_phone_spec _
      · rename_i hne
        left
        exact not_not.mp hne

/-- `allFilled` is `false` whenever the phone slot is empty. -/
lemma allFilled_phone_empty {f : DialogueState} (h : f.phone = "") :
    allFilled f = false := by
  unfold allFilled
  rw [h]
  simp [pyStrip]

/-- If the sanitized phone is empty, the final reply has an empty phone
and is not ready, whatever else happens in the turn. -/
lemma nlu_phone_empty (doctors : List String) (prior : DialogueState)
    (ext : Option ExtractOut) (hz : (sanitizeStage prior ext).filled.phone = "") :
    (nlu doctors prior ext).filled.phone = "" ∧ (nlu doctors prior ext).ready = false := by
  cases hres : doctorResolveStage doctors (sanitizeStage prior ext) with
  | inl e =>
    obtain ⟨_, hp, hr⟩ := doctorResolve_inl hres
    unfold nlu
    rw [hres]
    simp only [afterResolve]
    exact ⟨hp.trans hz, hr⟩
  | inr d2 =>
    obtain ⟨_, hp, _⟩ := doctorResolve_inr hres
    have hp0 : d2.filled.phone = "" := hp.trans hz
    unfold nlu
    rw [hres]
    simp only [afterResolve]
    split
    · exact ⟨hp0, rfl⟩
    · unfold finishStage
      rw [if_neg (by simp [hp0])]
      exact ⟨hp0, allFilled_phone_empty hp0⟩

lemma clean_phone_empty : clean_phone "" = "" := rfl

lemma clean_name_empty : clean_name "" = "" := rfl

/-- With an invariant-satisfying prior state, the extraction-failure
fallback re-sanitizes to exactly the prior state. -/
lemma sanitize_none (prior : DialogueState)
    (hname : clean_name prior.name = prior.name)
    (hphone : clean_phone prior.phone = prior.phone) :
    sanitizeStage prior none = ⟨prior, "Sorry, could you repeat that?", false⟩ := by
  obtain ⟨d, n, p, sv, dt, tt⟩ := prior
  simp only at hname hphone
  unfold sanitizeStage
  by_cases hn : n = "" <;> by_cases hp : p = "" <;>
    simp [hn, hp, hname, hphone, clean_phone_empty, clean_name_empty]

/-- Full characterization of the sanitize stage on a successful
extraction. -/
lemma sanitize_some (prior : DialogueState) (e : ExtractOut) :
    sanitizeStage prior (some e) =
      ⟨⟨e.filled.doctor,
          (if e.filled.name ≠ "" then clean_name e.filled.name else e.filled.name),
          (if e.filled.phone ≠ "" then clean_phone e.filled.phone else e.filled.phone),
          e.filled.service, e.filled.date_text, e.filled.time_text⟩,
        e.next_question, e.ready⟩ := by
  obtain ⟨⟨d, n, p, sv, dt, tt⟩, nq, rd⟩ := e
  unfold sanitizeStage
  by_cases hn : n = "" <;> by_cases hp : p = "" <;>
    simp [hn, hp, clean_phone_empty, clean_name_empty]

/-- The reply's phone slot is either empty or exactly the sanitized
phone. -/
lemma nlu_phone_cases (doctors : List String) (prior : DialogueState)
    (ext : Option ExtractOut) :
    (nlu doctors prior ext).filled.phone = "" ∨
      (nlu doctors prior ext).filled.phone = (sanitizeStage prior ext).filled.phone := by
  cases hres : doctorResolveStage doctors (sanitizeStage prior ext) with
  | inl e =>
    obtain ⟨_, hp, _⟩ := doctorResolve_inl hres
    unfold nlu
    rw [hres]
    simp only [afterResolve]
    right
    exact hp
  | inr d2 =>
    obtain ⟨_, hp, _⟩ := doctorResolve_inr hres
    unfold nlu
    rw [hres]
    simp only [afterResolve]
    split
    · right; exact hp
    · unfold finishStage
      split
      · left; rfl
      · right; exact hp

lemma char_toNat_inj {a b : Char} (h : a.toNat = b.toNat) : a = b := by
  apply Char.ext
  apply UInt32.ext
  simpa [Char.toNat, UInt32.toNat] using h

lemma lexLt_asymm : ∀ {a b : List Char}, lexLt a b = true → lexLt b a = false := by
  intro a
  induction a with
  | nil =>
    intro b h
    cases b with
    | nil => exact absurd h (by simp [lexLt])
    | cons c cs => rfl
  | cons x xs ih =>
    intro b h
    cases b with
    | nil => exact absurd h (by simp [lexLt])
    | cons y ys =>
      unfold lexLt at h ⊢
      by_cases hxy : x = y
      · subst hxy
        rw [if_pos rfl] at h ⊢
        exact ih h
      · rw [if_neg hxy] at h
        rw [if_neg (fun h2 => hxy h2.symm)]
        simp only [decide_eq_true_eq] at h
        simp only [decide_eq_false_iff_not]
        omega

lemma lexLt_trans : ∀ {a b c : List Char},
    lexLt a b = true → lexLt b c = true → lexLt a c = true := by
  intro a
  induction a with
  | nil =>
    intro b c hab hbc
    cases b with
    | nil => exact absurd hab (by simp [lexLt])
    | cons y ys =>
      cases c with
      | nil => exact absurd hbc (by simp [lexLt])
      | cons z zs => rfl
  | cons x xs ih =>
    intro b c hab hbc
    cases b with
    | nil => exact absurd hab (by simp [lexLt])
    | cons y ys =>
      cases c with
      | nil => exact absurd hbc (by simp [lexLt])
      | cons z zs =>
        unfold lexLt at hab hbc ⊢
        by_cases hxy : x = y
        · subst hxy
          rw [if_pos rfl] at hab
          by_cases hyz : x = z
          · subst hyz
            rw [if_pos rfl] at hbc ⊢
            exact ih hab hbc
          · rw [if_neg hyz] at hbc ⊢
            exact hbc
        · rw [if_neg hxy] at hab
          simp only [decide_eq_true_eq] at hab
          by_cases hyz : y = z
          · subst hyz
            rw [if_neg hxy]
            simpa using hab
          · rw [if_neg hyz] at hbc
            simp only [decide_eq_true_eq] at hbc
            have hxz : x.toNat < z.toNat := Nat.lt_trans hab hbc
            rw [if_neg (fun h2 => by subst h2; omega)]
            simpa using hxz

lemma lexLt_connex : ∀ {a b : List Char},
    lexLt a b = false → lexLt b a = false → a = b := by
  intro a
  induction a with
  | nil =>
    intro b h1 _
    cases b with
    | nil => rfl
    | cons y ys => exact absurd h1 (by simp [lexLt])
  | cons x xs ih =>
    intro b h1 h2
    cases b with
    | nil => exact absurd h2 (by simp [lexLt])
    | cons y ys =>
      unfold lexLt at h1 h2
      by_cases hxy : x = y
      · subst hxy
        rw [if_pos rfl] at h1 h2
        rw [ih h1 h2]
      · rw [if_neg hxy] at h1
        rw [if_neg (fun h => hxy h.symm)] at h2
        simp only [decide_eq_false_iff_not] at h1 h2
        exact absurd (char_toNat_inj (by omega)) hxy

lemma strLe_total (a b : String) : strLe a b = true ∨ strLe b a = true := by
  unfold strLe strLt
  by_cases h : lexLt b.data a.data = true
  · right
    rw [lexLt_asymm h]
    rfl
  · left
    simp only [Bool.not_eq_true] at h
    rw [h]
    rfl

lemma strLe_trans {a b c : String} (hab : strLe a b = true) (hbc : strLe b c = true) :
    strLe a c = true := by
  unfold strLe strLt at hab hbc ⊢
  simp only [Bool.not_eq_true'] at hab hbc ⊢
  by_cases hca : lexLt c.data a.data = true
  · by_cases hbc2 : lexLt b.data c.data = true
    · rw [lexLt_trans hbc2 hca] at hab
      exact absurd hab (by simp)
    · simp only [Bool.not_eq_true] at hbc2
      have hbceq : b.data = c.data := lexLt_connex hbc2 hbc
      rw [← hbceq] at hca
      rw [hca] at hab
      exact absurd hab (by simp)
  · simpa using hca

lemma insertLex_perm (x : String) (l : List String) :
    (insertLex x l).Perm (x :: l) := by
  induction l with
  | nil => rfl
  | cons y ys ih =>
    unfold insertLex
    split
    · rfl
    · exact (List.Perm.cons y ih).trans (List.Perm.swap x y ys)

lemma sortLex_perm (l : List String) : (sortLex l).Perm l := by
  induction l with
  | nil => rfl
  | cons x xs ih =>
    unfold sortLex
    exact (insertLex_perm x (sortLex xs)).trans (ih.cons x)

lemma insertLex_sorted (x : String) (l : List String)
    (h : l.Pairwise (fun a b => strLe a b = true)) :
    (insertLex x l).Pairwise (fun a b => strLe a b = true) := by
  induction l with
  | nil => simp [insertLex]
  | cons y ys ih =>
    unfold insertLex
    split
    · rename_i hxy
      refine List.Pairwise.cons ?_ h
      intro z hz
      rcases List.mem_cons.mp hz with hz | hz
      · subst hz; exact hxy
      · exact strLe_trans hxy (List.rel_of_pairwise_cons h hz)
    · rename_i hxy
      have hyx : strLe y x = true := by
        rcases strLe_total x y with h0 | h0
        · exact absurd h0 hxy
        · exact h0
      refine List.Pairwise.cons ?_ (ih (List.Pairwise.of_cons h))
      intro z hz
      have hz2 : z ∈ x :: ys := (insertLex_perm x ys).mem_iff.mp hz
      rcases List.mem_cons.mp hz2 with hz2 | hz2
      · subst hz2; exact hyx
      · exact List.rel_of_pairwise_cons h hz2

lemma sortLex_sorted (l : List String) :
    (sortLex l).Pairwise (fun a b => strLe a b = true) := by
  induction l with
  | nil => simp [sortLex]
  | cons x xs ih => exact insertLex_sorted x (sortLex xs) ih

/-- The fold that models `scored.sort(reverse=True); scored[0]` returns an
element of the scanned list (or the start value) whose ratio dominates
every scanned ratio. -/
lemma foldl_betterScore (l : List (ℚ × String)) (init : ℚ × String) :
    (l.foldl betterScore init = init ∨ l.foldl betterScore init ∈ l) ∧
      init.1 ≤ (l.foldl betterScore init).1 ∧
      ∀ p ∈ l, p.1 ≤ (l.foldl betterScore init).1 := by
  induction l generalizing init with
  | nil => simp
  | cons q l ih =>
    have hstep : betterScore init q = init ∨ betterScore init q = q := by
      unfold betterScore
      split
      · right; rfl
      · left; rfl
    have hinit : init.1 ≤ (betterScore init q).1 := by
      unfold betterScore
      split
      · rename_i h
        rcases h with h | h
        · exact le_of_lt h
        · exact le_of_eq h.1
      · exact le_refl _
    have hq : q.1 ≤ (betterScore init q).1 := by
      unfold betterScore
      split
      · exact le_refl _
      · rename_i h
        push_neg at h
        exact h.1
    obtain ⟨hmem, hini2, hall⟩ := ih (betterScore init q)
    rw [List.foldl_cons]
    refine ⟨?_, le_trans hinit hini2, ?_⟩
    · rcases hmem with h | h
      · rcases hstep with h2 | h2
        · left; rw [h, h2]
        · right; rw [h, h2]; exact List.mem_cons_self q l
      · right; exact List.mem_cons_of_mem q h
    · intro p hp
      rcases List.mem_cons.mp hp with hp | hp
      · subst hp; exact le_trans hq hini2
      · exact hall p hp

lemma matchTotalF_nil_left (fuel : Nat) (l : List Char) :
    matchTotalF fuel [] l = 0 := by
  cases fuel with
  | zero => rfl
  | succ n => rfl

/-- The similarity of the empty normalized fragment with any non-empty
string is 0 (Python computes `2*0/T = 0.0`). -/
lemma ratioQ_empty_left (b : String) (hb : b.length ≠ 0) : ratioQ "" b = 0 := by
  unfold ratioQ
  rw [if_neg (by simpa using hb)]
  have hm : matchTotal "".data b.data = 0 := matchTotalF_nil_left _ _
  rw [hm]
  simp

/-- The `/check` logic agrees with the spec-worded validator on every
(stripped) input, every workbook and every reply of the external date
parser. -/
lemma check_eq_specValidate (nf : NormFn) (wb : Workbook)
    (dr dt tt : String) :
    toOutcome (check nf wb dr dt tt) = specValidate nf wb dr dt tt := by
  simp only [check, specValidate]
  generalize (if dr ≠ "" then chooseDoctor (list_doctors wb) dr else (none, none)) = ro
  obtain ⟨canon, amb⟩ := ro
  cases amb with
  | some a =>
    simp [firstFail, toOutcome]
  | none =>
    by_cases hex : doctor_exists wb (orRaw canon dr)
    · cases hnres : nf dt tt with
      | none =>
        simp [firstFail, toOutcome, hex, hnres]
      | some p =>
        obtain ⟨d, t⟩ := p
        by_cases hd0 : d = ""
        · simp [firstFail, toOutcome, hex, hnres, hd0]
        · by_cases ht0 : t = ""
          · simp [firstFail, toOutcome, hex, hnres, hd0, ht0]
          · by_cases hwh : within_hours t
            · by_cases hsa : slot_available wb (orRaw canon dr) d t
              · simp [firstFail, toOutcome, hex, hnres, hd0, ht0, hwh, hsa]
              · simp [firstFail, toOutcome, hex, hnres, hd0, ht0, hwh, hsa]
            · simp [firstFail, toOutcome, hex, hnres, hd0, ht0, hwh]
    · simp [firstFail, toOutcome, hex]

/-! ## Claims -/

/-- C6: for every time string accepted by the 24-hour `HH:MM` parser,
`within_hours` returns true iff the time lies in the inclusive range
[14:00, 23:59]; in particular `within_hours "13:59" = false`,
`within_hours "14:00" = true`, `within_hours "23:59" = true`, and
`within_hours "00:30" = false`. -/
theorem within_hours_spec :
    (∀ (s : String) (h m : Nat), parse_hhmm s = some (h, m) →
      (within_hours s = true ↔ (14 * 60 ≤ 60 * h + m ∧ 60 * h + m ≤ 23 * 60 + 59))) ∧
    within_hours "13:59" = false ∧ within_hours "14:00" = true ∧
    within_hours "23:59" = true ∧ within_hours "00:30" = false := by
  refine ⟨?_, by decide, by decide, by decide, by decide⟩
  intro s h m hp
  obtain ⟨hb, mb⟩ := parse_hhmm_bounds hp
  unfold within_hours
  rw [hp]
  simp only [timeLe, Bool.and_eq_true, decide_eq_true_eq]
  omega

/-- C6 witness at the concrete time "14:00". -/
theorem within_hours_spec_witness :
    parse_hhmm "14:00" = some (14, 0) ∧
      (within_hours "14:00" = true ↔
        (14 * 60 ≤ 60 * 14 + 0 ∧ 60 * 14 + 0 ≤ 23 * 60 + 59)) :=
  ⟨by decide, within_hours_spec.1 "14:00" 14 0 (by decide)⟩

/-- C7: for clock times that parse in `HH:MM` form, `overlaps` is true iff
the absolute difference of the start times is strictly below 60 minutes,
and it is symmetric and reflexive. -/
theorem overlaps_spec :
    ∀ (t1 t2 : String) (h1 m1 h2 m2 : Nat),
      parse_hhmm t1 = some (h1, m1) → parse_hhmm t2 = some (h2, m2) →
      ((overlaps t1 t2 = true ↔
          (minutesOf (h1, m1) - minutesOf (h2, m2)).natAbs < 60) ∧
        overlaps t1 t2 = overlaps t2 t1 ∧
        overlaps t1 t1 = true) := by
  intro t1 t2 h1 m1 h2 m2 hp1 hp2
  refine ⟨?_, ?_, ?_⟩
  · unfold overlaps
    rw [hp1, hp2]
    simp only [decide_eq_true_eq]
    omega
  · unfold overlaps
    rw [hp1, hp2]
    show decide (60 * (minutesOf (h1, m1) - minutesOf (h2, m2)).natAbs < 3600) =
      decide (60 * (minutesOf (h2, m2) - minutesOf (h1, m1)).natAbs < 3600)
    apply decide_eq_decide.mpr
    constructor <;> (intro; omega)
  · unfold overlaps
    rw [hp1]
    show decide (60 * (minutesOf (h1, m1) - minutesOf (h1, m1)).natAbs < 3600) = true
    simp

/-- C7 witness at the concrete pair ("14:30", "14:40"). -/
theorem overlaps_spec_witness :
    parse_hhmm "14:30" = some (14, 30) ∧ parse_hhmm "14:40" = some (14, 40) ∧
      ((overlaps "14:30" "14:40" = true ↔
          (minutesOf (14, 30) - minutesOf (14, 40)).natAbs < 60) ∧
        overlaps "14:30" "14:40" = overlaps "14:40" "14:30" ∧
        overlaps "14:30" "14:30" = true) :=
  ⟨by decide, by decide,
    overlaps_spec "14:30" "14:40" 14 30 14 40 (by decide) (by decide)⟩

/-- C10: when at least one time string fails to parse as 24-hour `HH:MM`,
the overlap test is total (the parse failure is caught) and degrades to
strict string equality, so the availability check treats a malformed
stored time as conflicting only with an identical time string, never with
a 60-minute window around it. -/
theorem overlaps_fallback_spec :
    (∀ t1 t2 : String, parse_hhmm t1 = none ∨ parse_hhmm t2 = none →
      overlaps t1 t2 = (t1 == t2)) ∧
    (∀ name dateStr t timeStr pn sv ph st : String, parse_hhmm t = none →
      slot_available ⟨[(name, [⟨dateStr, t, pn, sv, ph, st⟩])]⟩ name dateStr timeStr =
        !(t == timeStr)) := by
  constructor
  · intro t1 t2 h
    unfold overlaps
    rcases h with h | h
    · rw [h]
    · rw [h]
      cases parse_hhmm t1 <;> rfl
  · intro name dateStr t timeStr pn sv ph st h
    unfold slot_available
    simp only [List.lookup, beq_self_eq_true, List.all_cons, List.all_nil,
      Bool.and_true]
    have hov : overlaps t timeStr = (t == timeStr) := by
      unfold overlaps; rw [h]
    rw [hov]
    simp

/-- C10 witness: a malformed stored time "25:99" blocks only the identical
string. -/
theorem overlaps_fallback_spec_witness :
    parse_hhmm "25:99" = none ∧
      (overlaps "25:99" "14:30" = ("25:99" == "14:30")) ∧
      slot_available ⟨[("Dr. Jesan Ahmed", [⟨"2025-03-01", "25:99", "A", "S", "01234567", "confirmed"⟩])]⟩
          "Dr. Jesan Ahmed" "2025-03-01" "14:30" = !("25:99" == "14:30") :=
  ⟨by decide,
    overlaps_fallback_spec.1 "25:99" "14:30" (Or.inl (by decide)),
    overlaps_fallback_spec.2 "Dr. Jesan Ahmed" "2025-03-01" "25:99" "14:30"
      "A" "S" "01234567" "confirmed" (by decide)⟩

/-- C9: every canonical provider name of the roster is a fixed point of
the Entity Resolver: `choose_doctor` returns it as confidently resolved. -/
theorem choose_doctor_canonical_fixed :
    ∀ d ∈ DOCTORS, chooseDoctor DOCTORS d = (some d, none) :=
  canonical_fixed

/-- C9 witness at the first roster name. -/
theorem choose_doctor_canonical_fixed_witness :
    "Dr. Jesan Ahmed" ∈ DOCTORS ∧
      chooseDoctor DOCTORS "Dr. Jesan Ahmed" = (some "Dr. Jesan Ahmed", none) :=
  ⟨by decide, choose_doctor_canonical_fixed "Dr. Jesan Ahmed" (by decide)⟩

/-- C1: the commit is *not* one indivisible check-and-write.  Under the
interleaving in which two `/book` requests for the same provider, the same
date and start times 10 minutes apart both run their availability check
against the same ledger state before either write saves, *both* succeed
(neither reports overlap) and the ledger ends up with two overlapping
rows — the claimed "exactly one succeeds" fails.  Sequentially, the
second request would have been rejected with the 409 overlap response,
which shows the loss is precisely the unsynchronized check-then-write. -/
theorem book_check_then_act_race :
    raceRun nfEcho initialWb
        ("Dr. Jesan Ahmed", "Alice", "01234567", "Cleaning", "2025-03-01", "14:30")
        ("Dr. Jesan Ahmed", "Bob", "12345678", "Cleaning", "2025-03-01", "14:40") =
      (BookResp.ok "Booked with Dr. Jesan Ahmed on 2025-03-01 at 14:30.",
        BookResp.ok "Booked with Dr. Jesan Ahmed on 2025-03-01 at 14:40.",
        ⟨[("Dr. Jesan Ahmed",
            [⟨"2025-03-01", "14:30", "Alice", "Cleaning", "01234567", "confirmed"⟩,
              ⟨"2025-03-01", "14:40", "Bob", "Cleaning", "12345678", "confirmed"⟩]),
          ("Dr. Hasan Rahman", []), ("Dr. Gregory House", [])]⟩) ∧
    overlaps "14:30" "14:40" = true ∧
    (book nfEcho true
        (book nfEcho true initialWb
          "Dr. Jesan Ahmed" "Alice" "01234567" "Cleaning" "2025-03-01" "14:30").wb
        "Dr. Jesan Ahmed" "Bob" "12345678" "Cleaning" "2025-03-01" "14:40").resp =
      some (BookResp.err "That time is already booked. Please choose another." 409) := by
  refine ⟨by decide, by decide, by decide⟩

/-- C8: when the persistent ledger is unavailable at commit time
(`wb.save` fails), the `/book` handler surfaces *no* outcome at all — the
exception escapes unhandled (`resp = none`), there is no
storage-unavailable reply, and the booking is not recorded; the identical
request with a healthy ledger commits, isolating the save as the failure
point. -/
theorem book_save_failure_unhandled :
    book nfEcho false initialWb
        "Dr. Jesan Ahmed" "Alice" "01234567" "Cleaning" "2025-03-01" "14:30" =
      ⟨none, initialWb⟩ ∧
    book nfEcho true initialWb
        "Dr. Jesan Ahmed" "Alice" "01234567" "Cleaning" "2025-03-01" "14:30" =
      ⟨some (BookResp.ok "Booked with Dr. Jesan Ahmed on 2025-03-01 at 14:30."),
        append_booking initialWb "Dr. Jesan Ahmed"
          ⟨"2025-03-01", "14:30", "Alice", "Cleaning", "01234567", "confirmed"⟩⟩ := by
  refine ⟨by decide, by decide⟩

/-- C2: for every pre-commit check request (any stripped body fields, any
workbook state, any reply of the external date parser), the `/check`
endpoint computes exactly the spec's Booking Validator: the five checks in
the fixed order doctor resolution, provider existence, temporal
normalization, business hours, availability, short-circuiting on the first
failure to `Rejected` with reason `ambiguous-doctor`, `unknown-doctor`,
`bad-datetime`, `outside-hours`, `overlap` respectively, and `Accepted`
with the normalized date and time only when all five checks pass. -/
theorem check_follows_validator (nf : NormFn) (wb : Workbook)
    (doctor_body date_body time_body : String) :
    toOutcome (checkEndpoint nf wb doctor_body date_body time_body) =
      specValidate nf wb (pyStrip doctor_body) (pyStrip date_body)
        (pyStrip time_body) :=
  check_eq_specValidate nf wb (pyStrip doctor_body) (pyStrip date_body)
    (pyStrip time_body)

/-- The scored list and the tuple-maximum of the fallback search over the
roster (the head of `scored.sort(reverse=True)`). -/
def scoredOf (s : String) : List (ℚ × String) :=
  DOCTORS.map (fun doc => (ratioQ (norm s) (norm doc), doc))

def bestPair (s : String) : ℚ × String :=
  (scoredOf s).foldl betterScore
    (ratioQ (norm s) (norm "Dr. Jesan Ahmed"), "Dr. Jesan Ahmed")

/-- C3: the Entity Resolver first collects every provider one of whose
normalized name tokens starts with some fragment token of length at least
3 (`fragCandidates`): exactly one candidate yields `Resolved` with that
provider; two or more yield `Ambiguous` with the two candidates lowest in
lexical order (the first two of the lexicographically sorted candidate
list — `sortLex` is indeed a sort: ordered and a permutation); and only
when no fragment token produced any candidate does it fall back to
whole-string similarity, returning a provider of maximal ratio iff that
ratio is at least 0.72, and `Unresolved` otherwise. -/
theorem choose_doctor_resolution (s : String) :
    (∀ p : String, fragCandidates DOCTORS s = [p] →
        chooseDoctor DOCTORS s = (some p, none)) ∧
    (2 ≤ (fragCandidates DOCTORS s).length →
        chooseDoctor DOCTORS s =
            (none, some ((sortLex (fragCandidates DOCTORS s)).take 2)) ∧
          (sortLex (fragCandidates DOCTORS s)).Pairwise
            (fun a b => strLe a b = true) ∧
          (sortLex (fragCandidates DOCTORS s)).Perm (fragCandidates DOCTORS s)) ∧
    (fragCandidates DOCTORS s = [] →
        ∃ b, b ∈ DOCTORS ∧
          (∀ d ∈ DOCTORS, ratioQ (norm s) (norm d) ≤ ratioQ (norm s) (norm b)) ∧
          chooseDoctor DOCTORS s =
            (if (72 : ℚ) / 100 ≤ ratioQ (norm s) (norm b) then (some b, none)
             else (none, none))) := by
  refine ⟨?_, ?_, ?_⟩
  · intro p hp
    have hs : s ≠ "" := by
      intro h0
      rw [h0] at hp
      have hemp : fragCandidates DOCTORS "" = [] := by decide
      rw [hemp] at hp
      exact List.noConfusion hp
    simp [chooseDoctor, hs, hp]
  · intro h2
    have hs : s ≠ "" := by
      intro h0
      rw [h0] at h2
      revert h2
      decide
    have hne1 : ¬ (fragCandidates DOCTORS s).length = 1 := by omega
    have hlt : 1 < (fragCandidates DOCTORS s).length := by omega
    exact ⟨by simp [chooseDoctor, hs, hne1, hlt], sortLex_sorted _, sortLex_perm _⟩
  · intro h0
    by_cases hs : s = ""
    · subst hs
      refine ⟨"Dr. Jesan Ahmed", by decide, ?_, ?_⟩
      · intro d hd
        rw [show norm "" = "" from rfl]
        fin_cases hd
        · exact le_refl _
        · rw [ratioQ_empty_left (norm "Dr. Hasan Rahman") (by decide),
            ratioQ_empty_left (norm "Dr. Jesan Ahmed") (by decide)]
        · rw [ratioQ_empty_left (norm "Dr. Gregory House") (by decide),
            ratioQ_empty_left (norm "Dr. Jesan Ahmed") (by decide)]
      · rw [show norm "" = "" from rfl,
          ratioQ_empty_left (norm "Dr. Jesan Ahmed") (by decide)]
        rw [if_neg (by norm_num)]
        decide
    · have hcd : chooseDoctor DOCTORS s = fallbackResolve DOCTORS s := by
        have hne1 : ¬ (fragCandidates DOCTORS s).length = 1 := by
          rw [h0]; simp
        have hnlt : ¬ 1 < (fragCandidates DOCTORS s).length := by
          rw [h0]; simp
        simp [chooseDoctor, hs, hne1, hnlt]
      have hfb : fallbackResolve DOCTORS s =
          (if (72 : ℚ) / 100 ≤ (bestPair s).1 then (some (bestPair s).2, none)
           else (none, none)) := rfl
      obtain ⟨hmem, hini, hall⟩ := foldl_betterScore (scoredOf s)
        (ratioQ (norm s) (norm "Dr. Jesan Ahmed"), "Dr. Jesan Ahmed")
      have hex : ∃ b, b ∈ DOCTORS ∧ bestPair s = (ratioQ (norm s) (norm b), b) := by
        rcases hmem with h | h
        · exact ⟨"Dr. Jesan Ahmed", by decide, h⟩
        · obtain ⟨doc, hdoc, hfd⟩ := List.mem_map.mp h
          exact ⟨doc, hdoc, hfd.symm⟩
      obtain ⟨b, hbmem, hbeq⟩ := hex
      refine ⟨b, hbmem, ?_, ?_⟩
      · intro d hd
        have hmem2 : (ratioQ (norm s) (norm d), d) ∈ scoredOf s :=
          List.mem_map_of_mem _ hd
        have h2 : (ratioQ (norm s) (norm d), d).1 ≤ (bestPair s).1 := hall _ hmem2
        rw [hbeq] at h2
        exact h2
      · rw [hcd, hfb, hbeq]

/-- C3 witness: the fragment "jesan" produces the single candidate
"Dr. Jesan Ahmed" and resolves to it. -/
theorem choose_doctor_resolution_witness :
    fragCandidates DOCTORS "jesan" = ["Dr. Jesan Ahmed"] ∧
      chooseDoctor DOCTORS "jesan" = (some "Dr. Jesan Ahmed", none) :=
  ⟨by decide, (choose_doctor_resolution "jesan").1 "Dr. Jesan Ahmed" (by decide)⟩

/-- C4 counterexample: on an extraction failure over a fully filled prior
state, the prior fields are indeed preserved, but the endpoint does *not*
return the fallback prompt "Sorry, could you repeat that?" — the prompt is
recomputed to the confirmation question and `ready` comes back `true`, not
`false`, because the fallback values are overwritten before the reply
(app.py lines 267-269). -/
theorem nlu_failure_counterexample :
    (nlu DOCTORS ⟨"Dr. Jesan Ahmed", "Bob", "01234567", "Cleaning", "tomorrow", "5 pm"⟩
        none).filled =
      ⟨"Dr. Jesan Ahmed", "Bob", "01234567", "Cleaning", "tomorrow", "5 pm"⟩ ∧
    (nlu DOCTORS ⟨"Dr. Jesan Ahmed", "Bob", "01234567", "Cleaning", "tomorrow", "5 pm"⟩
        none).next_question = "Great—shall I proceed to book this appointment?" ∧
    (nlu DOCTORS ⟨"Dr. Jesan Ahmed", "Bob", "01234567", "Cleaning", "tomorrow", "5 pm"⟩
          none).next_question ≠ "Sorry, could you repeat that?" ∧
    (nlu DOCTORS ⟨"Dr. Jesan Ahmed", "Bob", "01234567", "Cleaning", "tomorrow", "5 pm"⟩
        none).ready = true := by
  refine ⟨by decide, by decide, by decide, by decide⟩

/-- C4 (amended): on an extraction failure the prior filled fields are
returned unchanged whenever they satisfy the dialogue-state invariants
(canonical or empty doctor, sanitized name, sanitized phone), but the
turn then proceeds normally: the next prompt is the first-missing-slot
question (not the fallback prompt, which is overwritten before the
reply), and `ready` reflects whether all six slots are filled. -/
theorem nlu_failure_keeps_state (prior : DialogueState)
    (hdoc : prior.doctor = "" ∨ prior.doctor ∈ DOCTORS)
    (hname : clean_name prior.name = prior.name)
    (hphone : clean_phone prior.phone = prior.phone) :
    nlu DOCTORS prior none =
      ⟨prior, next_missing_question prior, allFilled prior⟩ := by
  have hs := sanitize_none prior hname hphone
  unfold nlu
  rw [hs]
  rw [@doctorResolve_canonical ⟨prior, "Sorry, could you repeat that?", false⟩ hdoc]
  simp only [afterResolve]
  rw [if_neg ?hguard]
  case hguard =>
    show ¬(prior.doctor ≠ "" ∧ ¬ DOCTORS.contains prior.doctor = true)
    rcases hdoc with h | h
    · intro hc
      exact hc.1 h
    · intro hc
      exact hc.2 (by simpa using h)
  unfold finishStage
  rw [if_neg ?hphoneguard]
  case hphoneguard =>
    show ¬(prior.phone ≠ "" ∧ prior.phone.length < 8)
    rcases clean_phone_fix hphone with h | h
    · intro hc
      exact hc.1 h
    · intro hc
      omega

/-- C4 witness: the amended theorem applied to the empty initial state. -/
theorem nlu_failure_keeps_state_witness :
    ((⟨"", "", "", "", "", ""⟩ : DialogueState).doctor = "" ∨
        (⟨"", "", "", "", "", ""⟩ : DialogueState).doctor ∈ DOCTORS) ∧
      clean_name "" = "" ∧ clean_phone "" = "" ∧
      nlu DOCTORS ⟨"", "", "", "", "", ""⟩ none =
        ⟨⟨"", "", "", "", "", ""⟩,
          next_missing_question ⟨"", "", "", "", "", ""⟩,
          allFilled ⟨"", "", "", "", "", ""⟩⟩ :=
  ⟨Or.inl rfl, rfl, rfl,
    nlu_failure_keeps_state ⟨"", "", "", "", "", ""⟩ (Or.inl rfl) rfl rfl⟩

/-- C5 counterexample: when the extraction returns a phone that sanitizes
to fewer than 8 digits ("1234") while the doctor slot is still empty, the
phone is cleared and ready is false, but the caller is *not* re-prompted
for a phone of at least 8 digits: the next prompt asks for the doctor
(the dedicated short-phone re-prompt at app.py lines 259-264 is dead code,
because `clean_phone` already cleared the phone at line 233). -/
theorem nlu_short_phone_counterexample :
    (nlu DOCTORS ⟨"", "", "", "", "", ""⟩
        (some ⟨⟨"", "", "1234", "", "", ""⟩, "q", false⟩)).filled.phone = "" ∧
    (nlu DOCTORS ⟨"", "", "", "", "", ""⟩
        (some ⟨⟨"", "", "1234", "", "", ""⟩, "q", false⟩)).ready = false ∧
    (nlu DOCTORS ⟨"", "", "", "", "", ""⟩
        (some ⟨⟨"", "", "1234", "", "", ""⟩, "q", false⟩)).next_question =
      "Which doctor would you like to book with?" ∧
    (nlu DOCTORS ⟨"", "", "", "", "", ""⟩
          (some ⟨⟨"", "", "1234", "", "", ""⟩, "q", false⟩)).next_question ≠
      "What is your phone number? Please say at least 8 digits." ∧
    (nlu DOCTORS ⟨"", "", "", "", "", ""⟩
          (some ⟨⟨"", "", "1234", "", "", ""⟩, "q", false⟩)).next_question ≠
      "Please say your phone number with at least 8 digits." := by
  refine ⟨by decide, by decide, by decide, by decide, by decide⟩

/-- C5 (amended): in every state produced by a turn, a non-empty phone
slot is digits-only with at least 8 digits; a phone that sanitizes to
fewer than 8 digits is cleared and ready is forced to false; and the
≥8-digit phone re-prompt is issued exactly through the first-missing-slot
rule, i.e. when the doctor resolves canonically and the name is present —
otherwise the turn prompts for the earlier missing slot (or for doctor
clarification) instead. -/
theorem nlu_phone_slot_invariant :
    (∀ (doctors : List String) (prior : DialogueState) (ext : Option ExtractOut),
      (nlu doctors prior ext).filled.phone = "" ∨
        (8 ≤ (nlu doctors prior ext).filled.phone.length ∧
          (nlu doctors prior ext).filled.phone.data.all (fun c => isDigitA c))) ∧
    (∀ (prior : DialogueState) (e : ExtractOut),
      e.filled.phone ≠ "" → clean_phone e.filled.phone = "" →
        (nlu DOCTORS prior (some e)).filled.phone = "" ∧
          (nlu DOCTORS prior (some e)).ready = false) ∧
    (∀ (prior : DialogueState) (e : ExtractOut),
      e.filled.phone ≠ "" → clean_phone e.filled.phone = "" →
        e.filled.doctor ∈ DOCTORS → pyStrip (clean_name e.filled.name) ≠ "" →
        (nlu DOCTORS prior (some e)).next_question =
          "What is your phone number? Please say at least 8 digits.") := by
  refine ⟨?_, ?_, ?_⟩
  · intro doctors prior ext
    rcases nlu_phone_cases doctors prior ext with h | h
    · left; exact h
    · rcases sanitize_phone_spec prior ext with h0 | h0
      · left; rw [h, h0]
      · right; rw [h]; exact h0
  · intro prior e hph hcl
    have hz : (sanitizeStage prior (some e)).filled.phone = "" := by
      rw [sanitize_some]
      show (if e.filled.phone ≠ "" then clean_phone e.filled.phone
        else e.filled.phone) = ""
      rw [if_pos hph]
      exact hcl
    exact nlu_phone_empty DOCTORS prior (some e) hz
  · intro prior e hph hcl hdoc hnm
    have hn : e.filled.name ≠ "" := by
      intro h0
      rw [h0, clean_name_empty] at hnm
      exact hnm rfl
    have hs2 : sanitizeStage prior (some e) =
        ⟨⟨e.filled.doctor, clean_name e.filled.name, "", e.filled.service,
            e.filled.date_text, e.filled.time_text⟩,
          e.next_question, e.ready⟩ := by
      rw [sanitize_some]
      simp [hn, hph, hcl]
    unfold nlu
    rw [hs2]
    rw [@doctorResolve_canonical
      ⟨⟨e.filled.doctor, clean_name e.filled.name, "", e.filled.service,
          e.filled.date_text, e.filled.time_text⟩, e.next_question, e.ready⟩
      (Or.inr hdoc)]
    simp only [afterResolve]
    rw [if_neg ?hguard]
    case hguard =>
      show ¬(e.filled.doctor ≠ "" ∧ ¬ DOCTORS.contains e.filled.doctor = true)
      intro hc
      exact hc.2 (by simpa using hdoc)
    unfold finishStage
    rw [if_neg ?hpg]
    case hpg =>
      show ¬(("" : String) ≠ "" ∧ ("" : String).length < 8)
      intro hc
      exact hc.1 rfl
    show next_missing_question
        ⟨e.filled.doctor, clean_name e.filled.name, "", e.filled.service,
          e.filled.date_text, e.filled.time_text⟩ = _
    unfold next_missing_question
    rw [if_neg ?hd, if_neg ?hn2]
    case hd =>
      show ¬ pyStrip e.filled.doctor = ""
      rw [(doctors_stripped e.filled.doctor hdoc).1]
      exact (doctors_stripped e.filled.doctor hdoc).2
    case hn2 =>
      exact hnm
    exact if_pos rfl

/-- C5 witness: the amended theorem applied to a turn whose extraction
returns doctor "Dr. Jesan Ahmed", name "Bob" and the short phone "1234". -/
theorem nlu_phone_slot_invariant_witness :
    ((⟨⟨"Dr. Jesan Ahmed", "Bob", "1234", "", "", ""⟩, "q", false⟩ :
          ExtractOut).filled.phone ≠ "" ∧
        clean_phone "1234" = "" ∧ "Dr. Jesan Ahmed" ∈ DOCTORS ∧
        pyStrip (clean_name "Bob") ≠ "") ∧
      (nlu DOCTORS ⟨"", "", "", "", "", ""⟩
          (some ⟨⟨"Dr. Jesan Ahmed", "Bob", "1234", "", "", ""⟩, "q", false⟩)).next_question =
        "What is your phone number? Please say at least 8 digits." :=
  ⟨⟨by decide, by decide, by decide, by decide⟩,
    nlu_phone_slot_invariant.2.2 ⟨"", "", "", "", "", ""⟩
      ⟨⟨"Dr. Jesan Ahmed", "Bob", "1234", "", "", ""⟩, "q", false⟩
      (by decide) (by decide) (by decide) (by decide)⟩

end Dentist
